import Mathlib

/-!
Verification of `effect-bun-testing` (`src/internal/internal.ts`) against its
natural-language specification.

The development is a shallow embedding of the adapter layer: causes, exits and
the outcome bridge (`runPromise`), the retry schedule combinators behind
`flakyTest`, the shared-layer registrar (`layer`), the tester factory
(`makeTester`) and the property-test option parsing.  Effects are represented
by their observable behaviour at each boundary: `runPromise` consumes the
terminal `Exit` of the effect it runs, and `flakyTest` consumes the per-attempt
outcome of the wrapped computation together with a clock trace.
-/

namespace EffectBunTesting

/-- Model of `Cause` from the effect runtime: a tree of failures.  `fail`
carries a typed error, `die` a defect, `interrupt` a fiber id; `sequential`
and `parallel` combine sub-causes.  Both error and defect payloads share the
type `E` (in the source both are `unknown`). -/
inductive Cause (E : Type) : Type where
  | empty : Cause E
  | fail (error : E) : Cause E
  | die (defect : E) : Cause E
  | interrupt (fiberId : Nat) : Cause E
  | sequential (left right : Cause E) : Cause E
  | parallel (left right : Cause E) : Cause E
  deriving DecidableEq

/-- Model of `Cause.isInterruptedOnly`: true when the cause contains no typed
failure and no defect (empty and interrupt nodes count as interrupted-only,
binary nodes conjoin). -/
def Cause.isInterruptedOnly {E : Type} : Cause E → Bool
  | .empty => true
  | .fail _ => false
  | .die _ => false
  | .interrupt _ => true
  | .sequential left right => left.isInterruptedOnly && right.isInterruptedOnly
  | .parallel left right => left.isInterruptedOnly && right.isInterruptedOnly

/-- Model of `Cause.prettyErrors`: the ordered list of rendered error entries,
one per `fail` or `die` node, concatenated left-to-right across `sequential`
and `parallel` nodes; interruptions render nothing. -/
def Cause.prettyErrors {E : Type} : Cause E → List E
  | .empty => []
  | .fail error => [error]
  | .die defect => [defect]
  | .interrupt _ => []
  | .sequential left right => left.prettyErrors ++ right.prettyErrors
  | .parallel left right => left.prettyErrors ++ right.prettyErrors

/-- A cause is interrupted-only exactly when it renders no error entries. -/
theorem Cause.isInterruptedOnly_iff_prettyErrors_nil {E : Type} (c : Cause E) :
    c.isInterruptedOnly = true ↔ c.prettyErrors = [] := by
  induction c with
  | empty => simp [isInterruptedOnly, prettyErrors]
  | fail error => simp [isInterruptedOnly, prettyErrors]
  | die defect => simp [isInterruptedOnly, prettyErrors]
  | interrupt fiberId => simp [isInterruptedOnly, prettyErrors]
  | sequential left right ihl ihr =>
      simp [isInterruptedOnly, prettyErrors, ihl, ihr]
  | parallel left right ihl ihr =>
      simp [isInterruptedOnly, prettyErrors, ihl, ihr]

/-- Model of `Exit`: the terminal state of running an effect. -/
inductive Exit (E A : Type) : Type where
  | success (value : A)
  | failure (cause : Cause E)
  deriving DecidableEq

/-- Message of the error thrown when the cause is interruption-only
(`new Error("All fibers interrupted without errors.")`). -/
def interruptedOnlyMessage : String := "All fibers interrupted without errors."

/-- The value a `runPromise` promise is rejected with. -/
inductive Rejection (E : Type) : Type where
  | hostError (message : String)
  | entry (error : E)
  | undefinedEntry
  deriving DecidableEq

/-- Resolution state of the promise returned by `runPromise`. -/
inductive PromiseOutcome (E A : Type) : Type where
  | resolved (value : A)
  | rejected (rejection : Rejection E)
  deriving DecidableEq

/-- Observable result of `runPromise`: how the promise settles, plus the
diagnostic log lines emitted via `Effect.logError` along the way. -/
structure RunResult (E A : Type) : Type where
  outcome : PromiseOutcome E A
  logs : List E
  deriving DecidableEq

/-- Model of `runPromise` (the Outcome Bridge), as a function of the terminal
exit of the effect it executes.  On success it resolves with the value; on an
interruption-only cause it rejects with the generic interruption error; on any
other failure it renders the cause, logs every entry after the first, and
rejects with the first entry.  The `undefinedEntry` branch mirrors the
unchecked `errors[0]!` index on an empty list, which is unreachable (see
`Cause.isInterruptedOnly_iff_prettyErrors_nil`). -/
def runPromise {E A : Type} : Exit E A → RunResult E A
  | .success value => ⟨.resolved value, []⟩
  | .failure cause =>
    if cause.isInterruptedOnly then
      ⟨.rejected (.hostError interruptedOnlyMessage), []⟩
    else
      match cause.prettyErrors with
      | [] => ⟨.rejected .undefinedEntry, []⟩
      | error :: rest => ⟨.rejected (.entry error), rest⟩

/-- C1: for every effect that terminates successfully, `runPromise` resolves
its promise with the value; for every effect whose terminal failure cause
renders to the entry list `e :: rest`, the promise rejects with the first
entry `e` and every later entry is emitted as a diagnostic log line. -/
theorem runPromise_resolves_success_and_rejects_first_pretty_error (E A : Type) :
    (∀ (value : A), runPromise (E := E) (.success value) = ⟨.resolved value, []⟩) ∧
    (∀ (cause : Cause E) (error : E) (rest : List E),
      cause.prettyErrors = error :: rest →
      runPromise (A := A) (.failure cause) = ⟨.rejected (.entry error), rest⟩) := by
  refine ⟨fun value => rfl, fun cause error rest h => ?_⟩
  have hnot : cause.isInterruptedOnly = false := by
    rcases Bool.eq_false_or_eq_true cause.isInterruptedOnly with ht | hf
    · rw [Cause.isInterruptedOnly_iff_prettyErrors_nil] at ht
      rw [ht] at h
      cases h
    · exact hf
  simp only [runPromise, hnot, Bool.false_eq_true, if_false, h]

/-- Witness for C1: a concrete success resolves, and a concrete two-failure
cause rejects with the first rendered entry while logging the rest. -/
theorem runPromise_resolves_success_and_rejects_first_pretty_error_witness :
    runPromise (E := Nat) (.success 7) = ⟨.resolved 7, []⟩ ∧
    runPromise (E := Nat) (A := Nat)
        (.failure (.sequential (.fail 1) (.parallel (.die 2) (.fail 3)))) =
      ⟨.rejected (.entry 1), [2, 3]⟩ :=
  ⟨(runPromise_resolves_success_and_rejects_first_pretty_error Nat Nat).1 7,
    (runPromise_resolves_success_and_rejects_first_pretty_error Nat Nat).2
      (.sequential (.fail 1) (.parallel (.die 2) (.fail 3))) 1 [2, 3] rfl⟩

/-- C2: for every terminal failure whose cause is interruption-only,
`runPromise` rejects with the generic
`"All fibers interrupted without errors."` error and never resolves. -/
theorem runPromise_interrupted_only_rejects (E A : Type) (cause : Cause E)
    (h : cause.isInterruptedOnly = true) :
    runPromise (A := A) (.failure cause) =
        ⟨.rejected (.hostError interruptedOnlyMessage), []⟩ ∧
    ∀ (value : A), (runPromise (A := A) (.failure cause)).outcome ≠ .resolved value := by
  constructor
  · simp only [runPromise, h, if_true]
  · intro value
    simp only [runPromise, h, if_true]
    intro hcontra
    cases hcontra

/-- Witness for C2: a concrete interruption-only cause rejects with the
generic interruption error. -/
theorem runPromise_interrupted_only_rejects_witness :
    runPromise (E := Nat) (A := Nat)
        (.failure (.parallel (.interrupt 1) (.sequential .empty (.interrupt 2)))) =
      ⟨.rejected (.hostError interruptedOnlyMessage), []⟩ :=
  (runPromise_interrupted_only_rejects Nat Nat
    (.parallel (.interrupt 1) (.sequential .empty (.interrupt 2))) rfl).1

/-! Model of `flakyTest`.  The wrapped computation is represented by the
outcome of each of its attempts (`run k` is what the `k`-th invocation does,
counting from 0) and by a clock trace (`now k` is the wall-clock reading, in
milliseconds, when the retry schedule is consulted after the `k`-th attempt
fails).  The schedule combinators mirror `Schedule.recurs`,
`Schedule.compose`, `Schedule.elapsed` and `Schedule.whileOutput` from the
effect runtime. -/

/-- Outcome of one attempt of an effect: success with a value, a typed
recoverable failure, or an unrecoverable defect.  Failure and defect payloads
share the type `E` (both are `unknown` in the source). -/
inductive Outcome (A E : Type) : Type where
  | success (value : A)
  | failure (error : E)
  | defect (error : E)
  deriving DecidableEq

/-- Model of `Effect.catchAllDefect(self, (defect) => Effect.fail(defect))`:
a defect is reclassified into an ordinary typed failure, other outcomes pass
through. -/
def catchAllDefectAsFail {A E : Type} : Outcome A E → Outcome A E
  | .defect error => .failure error
  | o => o

/-- Model of `Effect.orDie`: a typed failure is escalated into a defect,
other outcomes pass through. -/
def orDie {A E : Type} : Outcome A E → Outcome A E
  | .failure error => .defect error
  | o => o

/-- A retry schedule with state `σ`, consuming inputs `ι` (the error of the
failed attempt) and producing outputs `ω`.  `step` receives the current
wall-clock reading, the input and the state, and returns the next state, the
output and whether the schedule continues. -/
structure Schedule (σ ι ω : Type) : Type where
  initial : σ
  step : Nat → ι → σ → σ × ω × Bool

/-- Model of `Schedule.forever`: outputs the number of completed recurrences
(0 on the first step) and always continues. -/
def Schedule.forever {ι : Type} : Schedule Nat ι Nat :=
  ⟨0, fun _ _ state => (state + 1, state, true)⟩

/-- Model of `Schedule.whileOutput`: continues only while the underlying
schedule continues and the predicate holds of the output just produced. -/
def Schedule.whileOutput {σ ι ω : Type} (self : Schedule σ ι ω) (p : ω → Bool) :
    Schedule σ ι ω :=
  ⟨self.initial, fun now input state =>
    let r := self.step now input state
    (r.1, r.2.1, r.2.2 && p r.2.1)⟩

/-- Model of `Schedule.recurs(n)`: `forever` gated on the output staying
below `n`, so it permits exactly `n` continue-decisions. -/
def Schedule.recurs (ι : Type) (n : Nat) : Schedule Nat ι Nat :=
  Schedule.forever.whileOutput (fun out => decide (out < n))

/-- Model of `Schedule.elapsed`: remembers the wall-clock reading of its
first step and outputs the milliseconds elapsed since then (0 on the first
step); it always continues. -/
def Schedule.elapsed (ι : Type) : Schedule (Option Nat) ι Nat :=
  ⟨none, fun now _ state =>
    match state with
    | none => (some now, 0, true)
    | some start => (some start, now - start, true)⟩

/-- Model of `Schedule.compose`: feeds the first schedule's output into the
second, outputs the second's output, and continues only while both do. -/
def Schedule.compose {σ₁ σ₂ ι ω₁ ω₂ : Type} (self : Schedule σ₁ ι ω₁)
    (that : Schedule σ₂ ω₁ ω₂) : Schedule (σ₁ × σ₂) ι ω₂ :=
  ⟨(self.initial, that.initial), fun now input state =>
    let r₁ := self.step now input state.1
    let r₂ := that.step now r₁.2.1 state.2
    ((r₁.1, r₂.1), r₂.2.1, r₁.2.2 && r₂.2.2)⟩

/-- The retry schedule of `flakyTest`:
`Schedule.recurs(10) |> Schedule.compose(Schedule.elapsed) |>
Schedule.whileOutput(Duration.lessThanOrEqualTo(timeout))`. -/
def flakyTestSchedule (E : Type) (timeoutMillis : Nat) :
    Schedule (Nat × Option Nat) E Nat :=
  ((Schedule.recurs E 10).compose (Schedule.elapsed Nat)).whileOutput
    (fun elapsedOut => decide (elapsedOut ≤ timeoutMillis))

/-- Model of `Effect.retry(schedule)`: run the attempt at index `k`; a success
or defect is terminal; on a typed failure consult the schedule and retry while
it continues, surfacing the last error when it halts.  The result pairs the
terminal outcome with the total number of invocations performed.  `fuel`
bounds the number of schedule consultations so the definition is total; for
the `flakyTest` schedule any fuel of at least 10 yields the same result
(`retryLoop_flaky_fuel_irrelevant`), because `Schedule.recurs 10` halts the
schedule after ten continue-decisions. -/
def retryLoop {A E σ ω : Type} (run : Nat → Outcome A E) (now : Nat → Nat)
    (sch : Schedule σ E ω) : Nat → Nat → σ → Outcome A E × Nat
  | fuel, k, state =>
    match run k with
    | .success value => (.success value, k + 1)
    | .defect error => (.defect error, k + 1)
    | .failure error =>
      match fuel with
      | 0 => (.failure error, k + 1)
      | fuel' + 1 =>
        let r := sch.step (now k) error state
        if r.2.2 then retryLoop run now sch fuel' (k + 1) r.1
        else (.failure error, k + 1)

/-- Fuel given to `retryLoop` by the model; any value of at least 10 is
equivalent for the `flakyTest` schedule. -/
def retryFuel : Nat := 20

/-- Observable result of `flakyTest`: the terminal outcome together with the
number of times the wrapped computation was invoked. -/
structure FlakyResult (A E : Type) : Type where
  outcome : Outcome A E
  invocations : Nat
  deriving DecidableEq

/-- Model of `flakyTest(self, timeout)`: reclassify defects as typed
failures, retry under `flakyTestSchedule`, then escalate any residual typed
failure with `orDie`. -/
def flakyTest {A E : Type} (run : Nat → Outcome A E) (now : Nat → Nat)
    (timeoutMillis : Nat) : FlakyResult A E :=
  let sch := flakyTestSchedule E timeoutMillis
  let r := retryLoop (fun k => catchAllDefectAsFail (run k)) now sch retryFuel 0 sch.initial
  ⟨orDie r.1, r.2⟩

/-- Default timeout of `flakyTest`: `Duration.seconds(30)`, in milliseconds. -/
def defaultFlakyTimeoutMillis : Nat := 30 * 1000

/-- Model of `flakyTest(self)` with the timeout argument omitted. -/
def flakyTestDefault {A E : Type} (run : Nat → Outcome A E) (now : Nat → Nat) :
    FlakyResult A E :=
  flakyTest run now defaultFlakyTimeoutMillis

/-- Step characterization of the `flakyTest` schedule on a fresh elapsed
state. -/
theorem flakyTestSchedule_step_none (E : Type) (timeoutMillis now : Nat) (error : E)
    (count : Nat) :
    (flakyTestSchedule E timeoutMillis).step now error (count, none) =
      ((count + 1, some now), 0,
        (decide (count < 10) && true) && decide (0 ≤ timeoutMillis)) := rfl

/-- Step characterization of the `flakyTest` schedule once the start time has
been recorded. -/
theorem flakyTestSchedule_step_some (E : Type) (timeoutMillis now start : Nat)
    (error : E) (count : Nat) :
    (flakyTestSchedule E timeoutMillis).step now error (count, some start) =
      ((count + 1, some start), now - start,
        (decide (count < 10) && true) && decide (now - start ≤ timeoutMillis)) := rfl

/-- Initial state of the `flakyTest` schedule. -/
theorem flakyTestSchedule_initial (E : Type) (timeoutMillis : Nat) :
    (flakyTestSchedule E timeoutMillis).initial = (0, none) := rfl

/-- A successful attempt is terminal for `retryLoop`. -/
theorem retryLoop_success {A E σ ω : Type} {run : Nat → Outcome A E} {now : Nat → Nat}
    {sch : Schedule σ E ω} {fuel k : Nat} {state : σ} {a : A}
    (h : run k = .success a) :
    retryLoop run now sch fuel k state = (.success a, k + 1) := by
  conv_lhs => rw [retryLoop]
  rw [h]

/-- A defect is terminal for `retryLoop`. -/
theorem retryLoop_defect {A E σ ω : Type} {run : Nat → Outcome A E} {now : Nat → Nat}
    {sch : Schedule σ E ω} {fuel k : Nat} {state : σ} {d : E}
    (h : run k = .defect d) :
    retryLoop run now sch fuel k state = (.defect d, k + 1) := by
  conv_lhs => rw [retryLoop]
  rw [h]

/-- On a failed attempt with fuel remaining, `retryLoop` consults the
schedule and either retries or surfaces the error. -/
theorem retryLoop_failure_succ {A E σ ω : Type} {run : Nat → Outcome A E} {now : Nat → Nat}
    {sch : Schedule σ E ω} {fuel k : Nat} {state : σ} {error : E}
    (h : run k = .failure error) :
    retryLoop run now sch (fuel + 1) k state =
      if (sch.step (now k) error state).2.2 then
        retryLoop run now sch fuel (k + 1) (sch.step (now k) error state).1
      else (.failure error, k + 1) := by
  conv_lhs => rw [retryLoop]
  rw [h]

/-- On a failed attempt with no fuel, `retryLoop` surfaces the error. -/
theorem retryLoop_failure_zero {A E σ ω : Type} {run : Nat → Outcome A E} {now : Nat → Nat}
    {sch : Schedule σ E ω} {k : Nat} {state : σ} {error : E}
    (h : run k = .failure error) :
    retryLoop run now sch 0 k state = (.failure error, k + 1) := by
  conv_lhs => rw [retryLoop]
  rw [h]

/-- Adequacy of the fuel: for the `flakyTest` schedule, any two fuels that
cover the (at most `10 - count`) remaining continue-decisions produce the same
result, so the source's unfueled `Effect.retry` is faithfully represented. -/
theorem retryLoop_flaky_fuel_irrelevant {A E : Type} (run : Nat → Outcome A E)
    (now : Nat → Nat) (timeoutMillis : Nat) :
    ∀ (fuel₁ fuel₂ k count : Nat) (start : Option Nat),
      10 ≤ fuel₁ + count → 10 ≤ fuel₂ + count →
      retryLoop run now (flakyTestSchedule E timeoutMillis) fuel₁ k (count, start) =
        retryLoop run now (flakyTestSchedule E timeoutMillis) fuel₂ k (count, start) := by
  intro fuel₁
  induction fuel₁ with
  | zero =>
    intro fuel₂ k count start h₁ h₂
    have hge : ¬ count < 10 := by omega
    cases fuel₂ with
    | zero => rfl
    | succ fuel₂' =>
      cases hrun : run k with
      | success a => rw [retryLoop_success hrun, retryLoop_success hrun]
      | defect d => rw [retryLoop_defect hrun, retryLoop_defect hrun]
      | failure e =>
        rw [retryLoop_failure_zero hrun, retryLoop_failure_succ hrun]
        cases start <;>
          simp [flakyTestSchedule_step_none, flakyTestSchedule_step_some, hge]
  | succ fuel₁' ih =>
    intro fuel₂ k count start h₁ h₂
    cases fuel₂ with
    | zero =>
      have hge : ¬ count < 10 := by omega
      cases hrun : run k with
      | success a => rw [retryLoop_success hrun, retryLoop_success hrun]
      | defect d => rw [retryLoop_defect hrun, retryLoop_defect hrun]
      | failure e =>
        rw [retryLoop_failure_zero hrun, retryLoop_failure_succ hrun]
        cases start <;>
          simp [flakyTestSchedule_step_none, flakyTestSchedule_step_some, hge]
    | succ fuel₂' =>
      cases hrun : run k with
      | success a => rw [retryLoop_success hrun, retryLoop_success hrun]
      | defect d => rw [retryLoop_defect hrun, retryLoop_defect hrun]
      | failure e =>
        rw [retryLoop_failure_succ hrun, retryLoop_failure_succ hrun]
        cases start with
        | none =>
          rw [flakyTestSchedule_step_none]
          by_cases hcont :
              ((decide (count < 10) && true) && decide (0 ≤ timeoutMillis)) = true
          · rw [if_pos hcont, if_pos hcont]
            exact ih fuel₂' (k + 1) (count + 1) (some (now k))
              (by omega) (by omega)
          · rw [if_neg hcont, if_neg hcont]
        | some s =>
          rw [flakyTestSchedule_step_some]
          by_cases hcont :
              ((decide (count < 10) && true) && decide (now k - s ≤ timeoutMillis)) = true
          · rw [if_pos hcont, if_pos hcont]
            exact ih fuel₂' (k + 1) (count + 1) (some s) (by omega) (by omega)
          · rw [if_neg hcont, if_neg hcont]

/-- Under the `flakyTest` schedule, starting from recurrence count `count`,
the loop performs at most `1 + (10 - count)` further invocations. -/
theorem retryLoop_flaky_invocations_le {A E : Type} (run : Nat → Outcome A E)
    (now : Nat → Nat) (timeoutMillis : Nat) :
    ∀ (fuel k count : Nat) (start : Option Nat),
      (retryLoop run now (flakyTestSchedule E timeoutMillis) fuel k (count, start)).2 ≤
        k + 1 + (10 - count) := by
  intro fuel
  induction fuel with
  | zero =>
    intro k count start
    cases hrun : run k with
    | success a => rw [retryLoop_success hrun]; omega
    | defect d => rw [retryLoop_defect hrun]; omega
    | failure e => rw [retryLoop_failure_zero hrun]; omega
  | succ fuel' ih =>
    intro k count start
    cases hrun : run k with
    | success a => rw [retryLoop_success hrun]; omega
    | defect d => rw [retryLoop_defect hrun]; omega
    | failure e =>
      rw [retryLoop_failure_succ hrun]
      cases start with
      | none =>
        rw [flakyTestSchedule_step_none]
        by_cases hcont :
            ((decide (count < 10) && true) && decide (0 ≤ timeoutMillis)) = true
        · rw [if_pos hcont]
          have hlt : count < 10 := by
            have := hcont
            simp only [Bool.and_eq_true, decide_eq_true_eq] at this
            exact this.1.1
          have hrec := ih (k + 1) (count + 1) (some (now k))
          calc (retryLoop run now (flakyTestSchedule E timeoutMillis) fuel' (k + 1)
                  (count + 1, some (now k))).2
              ≤ (k + 1) + 1 + (10 - (count + 1)) := hrec
            _ ≤ k + 1 + (10 - count) := by omega
        · rw [if_neg hcont]; omega
      | some s =>
        rw [flakyTestSchedule_step_some]
        by_cases hcont :
            ((decide (count < 10) && true) && decide (now k - s ≤ timeoutMillis)) = true
        · rw [if_pos hcont]
          have hlt : count < 10 := by
            have := hcont
            simp only [Bool.and_eq_true, decide_eq_true_eq] at this
            exact this.1.1
          have hrec := ih (k + 1) (count + 1) (some s)
          calc (retryLoop run now (flakyTestSchedule E timeoutMillis) fuel' (k + 1)
                  (count + 1, some s)).2
              ≤ (k + 1) + 1 + (10 - (count + 1)) := hrec
            _ ≤ k + 1 + (10 - count) := by omega
        · rw [if_neg hcont]; omega

/-- C4 (amended): `flakyTest` invokes the wrapped computation at most 11
times in total — one initial attempt plus the at most 10 retries permitted by
`Schedule.recurs(10)` — for every timeout and clock trace. -/
theorem flakyTest_invocations_le_eleven {A E : Type} (run : Nat → Outcome A E)
    (now : Nat → Nat) (timeoutMillis : Nat) :
    (flakyTest run now timeoutMillis).invocations ≤ 11 := by
  have h := retryLoop_flaky_invocations_le (fun k => catchAllDefectAsFail (run k)) now
    timeoutMillis retryFuel 0 0 none
  simpa [flakyTest, flakyTestSchedule_initial] using h

/-- An attempt sequence that always fails with a typed error. -/
def alwaysFailRun : Nat → Outcome Nat Nat := fun _ => .failure 0

/-- A clock trace frozen at 0 (the elapsed-time bound never triggers). -/
def zeroClock : Nat → Nat := fun _ => 0

/-- C4 counterexample: under a huge timeout an always-failing effect is
invoked 11 times, refuting the claimed bound of at most 10 invocations. -/
theorem flakyTest_counterexample_eleven_invocations :
    (flakyTest alwaysFailRun zeroClock 1000000).invocations = 11 ∧
    ¬ (flakyTest alwaysFailRun zeroClock 1000000).invocations ≤ 10 := by
  refine ⟨?_, ?_⟩ <;> decide

/-- Escalating an outcome with `orDie` never yields a typed failure. -/
theorem orDie_ne_failure {A E : Type} (o : Outcome A E) (error : E) :
    orDie o ≠ .failure error := by
  cases o <;> simp [orDie]

/-- C5: `flakyTest` never terminates with the wrapped effect's typed error —
its typed-error channel is empty (the outcome is a success or a defect) — and
a defect raised by an attempt is reclassified into a recoverable failure
before the retry policy sees it, so it is retried: an effect that dies on
attempt 1 and succeeds on attempt 2 ends in that success after exactly two
invocations. -/
theorem flakyTest_never_typed_failure (A E : Type) :
    (∀ (run : Nat → Outcome A E) (now : Nat → Nat) (timeoutMillis : Nat) (error : E),
      (flakyTest run now timeoutMillis).outcome ≠ .failure error) ∧
    (∀ (run : Nat → Outcome A E) (now : Nat → Nat) (timeoutMillis : Nat) (d : E) (a : A),
      run 0 = .defect d → run 1 = .success a →
      flakyTest run now timeoutMillis = ⟨.success a, 2⟩) := by
  constructor
  · intro run now timeoutMillis error
    exact orDie_ne_failure _ error
  · intro run now timeoutMillis d a h0 h1
    have h0' : (fun k => catchAllDefectAsFail (run k)) 0 = Outcome.failure d := by
      simp [catchAllDefectAsFail, h0]
    have h1' : (fun k => catchAllDefectAsFail (run k)) 1 = Outcome.success a := by
      simp [catchAllDefectAsFail, h1]
    have key : retryLoop (fun k => catchAllDefectAsFail (run k)) now
        (flakyTestSchedule E timeoutMillis) retryFuel 0
        (flakyTestSchedule E timeoutMillis).initial = (Outcome.success a, 2) := by
      rw [flakyTestSchedule_initial, show retryFuel = 19 + 1 from rfl,
        retryLoop_failure_succ h0', flakyTestSchedule_step_none]
      rw [if_pos (by simp)]
      rw [retryLoop_success h1']
    show (⟨orDie (retryLoop (fun k => catchAllDefectAsFail (run k)) now
        (flakyTestSchedule E timeoutMillis) retryFuel 0
        (flakyTestSchedule E timeoutMillis).initial).1, _⟩ : FlakyResult A E) = _
    rw [key]
    rfl

/-- An attempt sequence that dies on attempt 1 and succeeds on attempt 2. -/
def defectThenSuccessRun : Nat → Outcome Nat Nat := fun k =>
  if k = 0 then .defect 5 else .success 7

/-- Witness for C5 at concrete inputs. -/
theorem flakyTest_never_typed_failure_witness :
    (flakyTest defectThenSuccessRun zeroClock 1000).outcome ≠ .failure 9 ∧
    flakyTest defectThenSuccessRun zeroClock 1000 = ⟨.success 7, 2⟩ :=
  ⟨(flakyTest_never_typed_failure Nat Nat).1 defectThenSuccessRun zeroClock 1000 9,
    (flakyTest_never_typed_failure Nat Nat).2 defectThenSuccessRun zeroClock 1000 5 7
      rfl rfl⟩

/-- When the elapsed-time gate fails at recurrence `k`, `retryLoop` under the
`flakyTest` schedule stops after attempt `k` and surfaces its error. -/
theorem retryLoop_flaky_elapsed_halts {A E : Type} (run : Nat → Outcome A E)
    (now : Nat → Nat) (timeoutMillis : Nat) (err : Nat → E) (k : Nat) :
    ∀ (fuel j : Nat), 1 ≤ j → j ≤ k → k ≤ 10 → k - j < fuel →
      (∀ i, j ≤ i → i ≤ k → run i = .failure (err i)) →
      (∀ i, j ≤ i → i < k → now i - now 0 ≤ timeoutMillis) →
      timeoutMillis < now k - now 0 →
      retryLoop run now (flakyTestSchedule E timeoutMillis) fuel j (j, some (now 0)) =
        (.failure (err k), k + 1) := by
  intro fuel
  induction fuel with
  | zero =>
    intro j h1 hjk hk10 hfuel hall hel hgt
    omega
  | succ fuel' ih =>
    intro j h1 hjk hk10 hfuel hall hel hgt
    have hrun : run j = .failure (err j) := hall j le_rfl hjk
    rw [retryLoop_failure_succ hrun, flakyTestSchedule_step_some]
    by_cases hje : j = k
    · subst hje
      have hno : ¬ (now j - now 0 ≤ timeoutMillis) := by omega
      rw [if_neg (by simp [hno])]
    · have hjlt : j < k := lt_of_le_of_ne hjk hje
      have hlt10 : j < 10 := by omega
      have hok : now j - now 0 ≤ timeoutMillis := hel j le_rfl hjlt
      rw [if_pos (by simp [hlt10, hok])]
      exact ih (j + 1) (by omega) (by omega) hk10 (by omega)
        (fun i hi hik => hall i (by omega) hik)
        (fun i hi hik => hel i (by omega) hik) hgt

/-- C6: if the elapsed-time gate of `flakyTest` trips at a retry decision
while fewer than 10 retries have been used, retrying stops there and the
residual failure is escalated to a defect; and with the timeout argument
omitted it defaults to 30 seconds (30000 milliseconds). -/
theorem flakyTest_timeout_cutoff (A E : Type) :
    (∀ (run : Nat → Outcome A E) (now : Nat → Nat) (timeoutMillis : Nat)
        (err : Nat → E) (k : Nat), 1 ≤ k → k < 10 →
      (∀ i, i ≤ k → run i = .failure (err i)) →
      (∀ i, 1 ≤ i → i < k → now i - now 0 ≤ timeoutMillis) →
      timeoutMillis < now k - now 0 →
      flakyTest run now timeoutMillis = ⟨.defect (err k), k + 1⟩) ∧
    (∀ (run : Nat → Outcome A E) (now : Nat → Nat),
      flakyTestDefault run now = flakyTest run now (30 * 1000)) := by
  constructor
  · intro run now timeoutMillis err k h1 h10 hall hel hgt
    have hall' : ∀ i, i ≤ k → (fun j => catchAllDefectAsFail (run j)) i =
        Outcome.failure (err i) := by
      intro i hi
      simp [catchAllDefectAsFail, hall i hi]
    have key : retryLoop (fun j => catchAllDefectAsFail (run j)) now
        (flakyTestSchedule E timeoutMillis) retryFuel 0
        (flakyTestSchedule E timeoutMillis).initial = (Outcome.failure (err k), k + 1) := by
      rw [flakyTestSchedule_initial, show retryFuel = 19 + 1 from rfl,
        retryLoop_failure_succ (hall' 0 (Nat.zero_le k)), flakyTestSchedule_step_none]
      rw [if_pos (by simp)]
      exact retryLoop_flaky_elapsed_halts _ now timeoutMillis err k 19 1 le_rfl h1
        (by omega) (by omega) (fun i _ hik => hall' i hik)
        (fun i hi hik => hel i hi hik) hgt
    show (⟨orDie (retryLoop (fun j => catchAllDefectAsFail (run j)) now
        (flakyTestSchedule E timeoutMillis) retryFuel 0
        (flakyTestSchedule E timeoutMillis).initial).1, _⟩ : FlakyResult A E) = _
    rw [key]
    rfl
  · intro run now
    rfl

/-- An attempt sequence failing with its own index as the error. -/
def failWithIndexRun : Nat → Outcome Nat Nat := fun k => .failure k

/-- A clock trace advancing 20000 ms per schedule consultation. -/
def twentyThousandClock : Nat → Nat := fun k => k * 20000

/-- Witness for C6: with a 15000 ms timeout and a clock that has advanced
20000 ms by the second decision, retrying stops after 2 invocations although
9 retries remain in the count budget. -/
theorem flakyTest_timeout_cutoff_witness :
    flakyTest failWithIndexRun twentyThousandClock 15000 = ⟨.defect 1, 2⟩ :=
  (flakyTest_timeout_cutoff Nat Nat).1 failWithIndexRun twentyThousandClock 15000
    (fun i => i) 1 le_rfl (by omega) (fun i _ => rfl)
    (by intro i hi hik; omega) (by decide)

/-- C7: an effect failing on attempts 1 and 2 and succeeding on attempt 3,
run with a timeout the elapsed clock stays within, resolves with the
attempt-3 value after exactly 3 invocations; an effect succeeding on attempt
1 resolves immediately after exactly 1 invocation. -/
theorem flakyTest_retry_scenarios (A E : Type) :
    (∀ (run : Nat → Outcome A E) (now : Nat → Nat) (timeoutMillis : Nat)
        (e₀ e₁ : E) (a : A),
      run 0 = .failure e₀ → run 1 = .failure e₁ → run 2 = .success a →
      now 1 - now 0 ≤ timeoutMillis →
      flakyTest run now timeoutMillis = ⟨.success a, 3⟩) ∧
    (∀ (run : Nat → Outcome A E) (now : Nat → Nat) (timeoutMillis : Nat) (a : A),
      run 0 = .success a → flakyTest run now timeoutMillis = ⟨.success a, 1⟩) := by
  constructor
  · intro run now timeoutMillis e₀ e₁ a h0 h1 h2 hclock
    have h0' : (fun k => catchAllDefectAsFail (run k)) 0 = Outcome.failure e₀ := by
      simp [catchAllDefectAsFail, h0]
    have h1' : (fun k => catchAllDefectAsFail (run k)) 1 = Outcome.failure e₁ := by
      simp [catchAllDefectAsFail, h1]
    have h2' : (fun k => catchAllDefectAsFail (run k)) 2 = Outcome.success a := by
      simp [catchAllDefectAsFail, h2]
    have key : retryLoop (fun k => catchAllDefectAsFail (run k)) now
        (flakyTestSchedule E timeoutMillis) retryFuel 0
        (flakyTestSchedule E timeoutMillis).initial = (Outcome.success a, 3) := by
      rw [flakyTestSchedule_initial, show retryFuel = 19 + 1 from rfl,
        retryLoop_failure_succ h0', flakyTestSchedule_step_none]
      rw [if_pos (by simp)]
      rw [show (19 : Nat) = 18 + 1 from rfl, retryLoop_failure_succ h1',
        flakyTestSchedule_step_some]
      rw [if_pos (by simp [hclock])]
      rw [retryLoop_success h2']
    show (⟨orDie (retryLoop (fun k => catchAllDefectAsFail (run k)) now
        (flakyTestSchedule E timeoutMillis) retryFuel 0
        (flakyTestSchedule E timeoutMillis).initial).1, _⟩ : FlakyResult A E) = _
    rw [key]
    rfl
  · intro run now timeoutMillis a h0
    have h0' : (fun k => catchAllDefectAsFail (run k)) 0 = Outcome.success a := by
      simp [catchAllDefectAsFail, h0]
    have key : retryLoop (fun k => catchAllDefectAsFail (run k)) now
        (flakyTestSchedule E timeoutMillis) retryFuel 0
        (flakyTestSchedule E timeoutMillis).initial = (Outcome.success a, 1) := by
      rw [flakyTestSchedule_initial, retryLoop_success h0']
    show (⟨orDie (retryLoop (fun k => catchAllDefectAsFail (run k)) now
        (flakyTestSchedule E timeoutMillis) retryFuel 0
        (flakyTestSchedule E timeoutMillis).initial).1, _⟩ : FlakyResult A E) = _
    rw [key]
    rfl

/-- An attempt sequence failing on attempts 1 and 2 and succeeding on
attempt 3. -/
def failTwiceRun : Nat → Outcome Nat Nat := fun k =>
  if k < 2 then .failure k else .success 42

/-- An attempt sequence succeeding immediately. -/
def immediateSuccessRun : Nat → Outcome Nat Nat := fun _ => .success 9

/-- Witness for C7 at concrete inputs. -/
theorem flakyTest_retry_scenarios_witness :
    flakyTest failTwiceRun zeroClock 1000 = ⟨.success 42, 3⟩ ∧
    flakyTest immediateSuccessRun zeroClock 1000 = ⟨.success 9, 1⟩ :=
  ⟨(flakyTest_retry_scenarios Nat Nat).1 failTwiceRun zeroClock 1000 0 1 42
      rfl rfl rfl (by decide),
    (flakyTest_retry_scenarios Nat Nat).2 immediateSuccessRun zeroClock 1000 9 rfl⟩

/-! Model of `layer`.  Dependency graphs are symbolic trees; `MemoMap` and
`Scope` instances are identified by the order in which `Effect.runSync`
allocates them, threaded through an allocation supply.  Invoking the
`LayerFn` returned by `layer(graph, options)` produces a registrar instance:
its effective graph, its MemoMap and Scope, the cached runtime-construction
action shared by the `beforeAll` hook and both restricted testers, and the
argument pair its nested `layer` method passes back into `layer`. -/

/-- Symbolic dependency graph (`Layer`).  `testContext` and
`loggerRemoveDefault` are the building blocks of the test-services layer. -/
inductive LayerG : Type where
  | leaf (id : Nat)
  | provideMerge (self that : LayerG)
  | provide (self that : LayerG)
  | testContext
  | loggerRemoveDefault
  deriving DecidableEq

/-- The test-services layer `TestEnv`:
`TestContext.TestContext.pipe(Layer.provide(Logger.remove(Logger.defaultLogger)))`. -/
def TestEnv : LayerG := .provide .testContext .loggerRemoveDefault

/-- Model of the `layer` options bag; every field is optional as in the
source (`memoMap?`, `timeout?`, `excludeTestServices?`). -/
structure LayerOpts : Type where
  memoMap : Option Nat := none
  timeoutMillis : Option Nat := none
  excludeTestServices : Option Bool := none
  deriving DecidableEq

/-- The runtime-construction action
`Layer.toRuntimeWithMemoMap(withTestEnv, memoMap)` extended into the
registrar's scope: building this graph under this MemoMap and Scope. -/
structure BuildAction : Type where
  graph : LayerG
  memoMap : Nat
  scope : Nat
  deriving DecidableEq

/-- State of the `Effect.cached` wrapper around the construction action: the
memoized runtime, if already built, and how many times the underlying build
has actually executed. -/
structure CachedState : Type where
  stored : Option BuildAction
  builds : Nat
  deriving DecidableEq

/-- Cache state of a freshly created registrar: nothing built yet. -/
def initialCachedState : CachedState := ⟨none, 0⟩

/-- Forcing the cached construction action (`Effect.cached` semantics): a
stored result is returned as is; otherwise the build runs once and its result
is stored. -/
def forceCached (action : BuildAction) (st : CachedState) : BuildAction × CachedState :=
  match st.stored with
  | some r => (r, st)
  | none => (action, ⟨some action, st.builds + 1⟩)

/-- Forcing the cached construction action `n` times in sequence, as the
`beforeAll` hook and every test body sharing the registrar do. -/
def forceCachedTimes (action : BuildAction) : Nat → CachedState → CachedState
  | 0, st => st
  | n + 1, st => forceCachedTimes action n (forceCached action st).2

/-- A registrar instance produced by invoking the function `layer` returns. -/
structure Registrar : Type where
  withTestEnv : LayerG
  memoMap : Nat
  scope : Nat
  timeoutMillis : Option Nat
  runtimeEffect : BuildAction
  nestedArgs : LayerG → Option LayerOpts → LayerG × LayerOpts

/-- Model of one invocation of the function returned by
`layer(graph, options)`: compute the effective graph
(`excludeTestServices ? graph : provideMerge(graph, TestEnv)`), obtain the
MemoMap (reuse `options.memoMap` or allocate fresh), allocate the scope,
build the cached construction action, and expose the nested `layer` method,
which calls `layer(Layer.provideMerge(nestedLayer, withTestEnv),
{...nestedOptions, memoMap, excludeTestServices: true})`.  Returns the
registrar together with the advanced allocation supply. -/
def layerInvoke (graph : LayerG) (options : Option LayerOpts) (supply : Nat) :
    Registrar × Nat :=
  let excludeTestServices := (options.bind (·.excludeTestServices)).getD false
  let withTestEnv := if excludeTestServices then graph else .provideMerge graph TestEnv
  let memoMapAlloc :=
    match options.bind (·.memoMap) with
    | some m => (m, supply)
    | none => (supply, supply + 1)
  let memoMap := memoMapAlloc.1
  let scope := memoMapAlloc.2
  let timeoutMillis := options.bind (·.timeoutMillis)
  ( { withTestEnv := withTestEnv
      memoMap := memoMap
      scope := scope
      timeoutMillis := timeoutMillis
      runtimeEffect := ⟨withTestEnv, memoMap, scope⟩
      nestedArgs := fun nestedLayer nestedOptions =>
        (.provideMerge nestedLayer withTestEnv,
          { memoMap := some memoMap
            timeoutMillis := nestedOptions.bind (·.timeoutMillis)
            excludeTestServices := some true }) },
    memoMapAlloc.2 + 1 )

/-- Once the cached construction action has a stored result, further forces
leave the cache state unchanged. -/
theorem forceCachedTimes_stored (action stored : BuildAction) (builds : Nat) :
    ∀ n, forceCachedTimes action n ⟨some stored, builds⟩ = ⟨some stored, builds⟩ := by
  intro n
  induction n with
  | zero => rfl
  | succ n ih =>
    show forceCachedTimes action n (forceCached action ⟨some stored, builds⟩).2 = _
    exact ih

/-- C3: for every registrar produced by one invocation of `layer`, the
construction action is executed at most once no matter how many times the
hooks and tests force the shared cache; and the nested `layer` method passes
the registrar's own MemoMap (with `excludeTestServices` set to `true`) back
into `layer`, so the registrar a nested call produces — under any allocation
supply — carries the identical MemoMap rather than a fresh one. -/
theorem layer_builds_once_and_shares_memoMap (graph : LayerG)
    (options : Option LayerOpts) (supply : Nat) :
    (∀ n, (forceCachedTimes (layerInvoke graph options supply).1.runtimeEffect n
        initialCachedState).builds ≤ 1) ∧
    (∀ (nestedLayer : LayerG) (nestedOptions : Option LayerOpts),
      ((layerInvoke graph options supply).1.nestedArgs nestedLayer nestedOptions).2.memoMap =
          some (layerInvoke graph options supply).1.memoMap ∧
      ((layerInvoke graph options supply).1.nestedArgs nestedLayer
          nestedOptions).2.excludeTestServices = some true ∧
      ∀ supply' : Nat,
        (layerInvoke
            ((layerInvoke graph options supply).1.nestedArgs nestedLayer nestedOptions).1
            (some ((layerInvoke graph options supply).1.nestedArgs nestedLayer
              nestedOptions).2)
            supply').1.memoMap =
          (layerInvoke graph options supply).1.memoMap) := by
  constructor
  · intro n
    cases n with
    | zero => exact Nat.zero_le 1
    | succ n =>
      show (forceCachedTimes _ n
          (forceCached (layerInvoke graph options supply).1.runtimeEffect
            initialCachedState).2).builds ≤ 1
      rw [show (forceCached (layerInvoke graph options supply).1.runtimeEffect
          initialCachedState).2 =
          ⟨some (layerInvoke graph options supply).1.runtimeEffect, 1⟩ from rfl]
      rw [forceCachedTimes_stored]
  · intro nestedLayer nestedOptions
    exact ⟨rfl, rfl, fun supply' => rfl⟩

/-- C8: the graph a registrar actually builds is the supplied graph itself
when `excludeTestServices` is `true`, and the supplied graph
`provideMerge`-d with the test-services layer when `excludeTestServices` is
`false`, absent from the options bag, or the options bag is missing
altogether (default `false`). -/
theorem layer_effective_graph (graph : LayerG) (supply : Nat) :
    (∀ options : Option LayerOpts,
      (options.bind (·.excludeTestServices)).getD false = true →
      (layerInvoke graph options supply).1.withTestEnv = graph) ∧
    (∀ options : Option LayerOpts,
      (options.bind (·.excludeTestServices)).getD false = false →
      (layerInvoke graph options supply).1.withTestEnv = .provideMerge graph TestEnv) ∧
    (layerInvoke graph none supply).1.withTestEnv = .provideMerge graph TestEnv ∧
    (∀ opts : LayerOpts, opts.excludeTestServices = none →
      (layerInvoke graph (some opts) supply).1.withTestEnv =
        .provideMerge graph TestEnv) := by
  refine ⟨fun options h => ?_, fun options h => ?_, rfl, fun opts h => ?_⟩
  · simp only [layerInvoke, h, if_true]
  · simp only [layerInvoke, h, Bool.false_eq_true, if_false]
  · simp [layerInvoke, h]

/-- Witness for C8 at concrete inputs: with `excludeTestServices: true` the
graph is untouched; with it `false`, absent, or with no options at all the
test-services layer is merged in. -/
theorem layer_effective_graph_witness :
    (layerInvoke (.leaf 3) (some ⟨none, none, some true⟩) 0).1.withTestEnv = .leaf 3 ∧
    (layerInvoke (.leaf 3) (some ⟨none, none, some false⟩) 0).1.withTestEnv =
      .provideMerge (.leaf 3) TestEnv ∧
    (layerInvoke (.leaf 3) none 0).1.withTestEnv = .provideMerge (.leaf 3) TestEnv ∧
    (layerInvoke (.leaf 3) (some ⟨some 7, none, none⟩) 0).1.withTestEnv =
      .provideMerge (.leaf 3) TestEnv :=
  ⟨(layer_effective_graph (.leaf 3) 0).1 (some ⟨none, none, some true⟩) rfl,
    (layer_effective_graph (.leaf 3) 0).2.1 (some ⟨none, none, some false⟩) rfl,
    (layer_effective_graph (.leaf 3) 0).2.2.1,
    (layer_effective_graph (.leaf 3) 0).2.2.2 ⟨some 7, none, none⟩ rfl⟩

/-! Model of `makeTester` and the four preconfigured testers.  A test body is
a symbolic effect; each modifier of a tester produces a registration record
whose `toRun` field is the effect the registered closure hands to the Outcome
Bridge, namely `runPromise(pipe(Effect.suspend(self), mapEffect,
Effect.asVoid))`.  The constructor `scopedOf` models `Effect.scoped` (the
bare name is a Lean keyword). -/

/-- Symbolic effect descriptions as assembled by the tester factory. -/
inductive Eff : Type where
  | body (id : Nat)
  | suspend (self : Eff)
  | provide (self : Eff) (graph : LayerG)
  | scopedOf (self : Eff)
  | asVoid (self : Eff)
  deriving DecidableEq

/-- Environment transform of `live`: `(e) => e` (identity; no test services,
not auto-scoped). -/
def liveTransform : Eff → Eff := fun e => e

/-- Environment transform of `scopedLive`: `(e) => Effect.scoped(e)` (scoping
only). -/
def scopedLiveTransform : Eff → Eff := fun e => .scopedOf e

/-- Environment transform of `effect`:
`(e) => Effect.provide(e, TestEnv)` (test services only, not auto-scoped). -/
def effectTransform : Eff → Eff := fun e => .provide e TestEnv

/-- Environment transform of `scoped`:
`(e) => e.pipe(Effect.scoped, Effect.provide(TestEnv))` (scoping, then test
services). -/
def scopedTransform : Eff → Eff := fun e => .provide (.scopedOf e) TestEnv

/-- How a registration was made: which host-runner entry point received it. -/
inductive RegKind : Type where
  | plain
  | skip
  | only
  | skipIf (condition : Bool)
  | ifCond (condition : Bool)
  | eachCase
  | failing
  deriving DecidableEq

/-- A test registration handed to the host runner: the entry point used, the
test name, the effect the registered closure passes to `runPromise`, and the
host-runner timeout. -/
structure Registration : Type where
  kind : RegKind
  name : String
  toRun : Eff
  timeoutMillis : Option Nat
  deriving DecidableEq

/-- Opaque token standing for a `fc.Parameters` object. -/
abbrev FcParams := Nat

/-- The final `timeoutOrOptions` argument of a property test: a plain number
(host-runner timeout in ms), an object with an optional `fastCheck` field, or
omitted. -/
inductive PropTimeout : Type where
  | millis (n : Nat)
  | objectOptions (fastCheck : Option FcParams)
  | absent
  deriving DecidableEq

/-- Model of `typeof timeout === "object" ? timeout?.fastCheck : undefined`. -/
def fcOptionsOf : PropTimeout → Option FcParams
  | .objectOptions fastCheck => fastCheck
  | _ => none

/-- Model of `typeof timeout === "number" ? timeout : undefined`. -/
def timeoutMsOf : PropTimeout → Option Nat
  | .millis n => some n
  | _ => none

/-- A property-test registration made through a tester's `prop`: one host
test whose body asserts the property; `runPerArgs` gives, per generated
argument tuple, the effect handed to `runPromise`. -/
structure PropRegistration : Type where
  name : String
  arbitraries : List Nat
  runPerArgs : List Nat → Eff
  fcOptions : Option FcParams
  timeoutMillis : Option Nat

/-- The full registration surface `makeTester(mapEffect)` returns: `base` is
the tester called directly, the rest are its modifiers.  Each test body is
wrapped as `Effect.suspend(body) |> mapEffect |> Effect.asVoid` and handed to
`runPromise`. -/
structure TesterSurface : Type where
  base : String → Eff → Option Nat → Registration
  skip : String → Eff → Option Nat → Registration
  only : String → Eff → Option Nat → Registration
  skipIf : Bool → String → Eff → Option Nat → Registration
  ifCond : Bool → String → Eff → Option Nat → Registration
  runIf : Bool → String → Eff → Option Nat → Registration
  each : List Nat → String → (Nat → Eff) → Option Nat → List Registration
  failing : String → Eff → Option Nat → Registration
  fails : String → Eff → Option Nat → Registration
  propOf : String → List Nat → (List Nat → Eff) → PropTimeout → PropRegistration

/-- Model of `makeTester(mapEffect)`. -/
def makeTester (mapEffect : Eff → Eff) : TesterSurface :=
  let run : Eff → Eff := fun self => .asVoid (mapEffect (.suspend self))
  { base := fun name self timeout => ⟨.plain, name, run self, timeout⟩
    skip := fun name self timeout => ⟨.skip, name, run self, timeout⟩
    only := fun name self timeout => ⟨.only, name, run self, timeout⟩
    skipIf := fun condition name self timeout =>
      ⟨.skipIf condition, name, run self, timeout⟩
    ifCond := fun condition name self timeout =>
      ⟨.ifCond condition, name, run self, timeout⟩
    runIf := fun condition name self timeout =>
      ⟨.ifCond condition, name, run self, timeout⟩
    each := fun cases name self timeout =>
      cases.map fun args => ⟨.eachCase, name, .asVoid (mapEffect (.suspend (self args))), timeout⟩
    failing := fun name self timeout => ⟨.failing, name, run self, timeout⟩
    fails := fun name self timeout => ⟨.failing, name, run self, timeout⟩
    propOf := fun name arbitraries self timeout =>
      ⟨name, arbitraries,
        fun args => .asVoid (mapEffect (.suspend (self args))),
        fcOptionsOf timeout, timeoutMsOf timeout⟩ }

/-- The preconfigured tester `effect` (test services, not auto-scoped). -/
def effect : TesterSurface := makeTester effectTransform

/-- The preconfigured tester `scoped` (auto-scoped, then test services); the
bare source name is a Lean keyword. -/
def scopedEff : TesterSurface := makeTester scopedTransform

/-- The preconfigured tester `live` (no test services, not auto-scoped). -/
def live : TesterSurface := makeTester liveTransform

/-- The preconfigured tester `scopedLive` (no test services, auto-scoped). -/
def scopedLive : TesterSurface := makeTester scopedLiveTransform

/-- The tester surface of `makeMethods` / the default `it` export: exactly
four tester variants (plus the non-tester members `flakyTest`, `layer` and
`prop`, modelled separately). -/
structure Methods : Type where
  effect : TesterSurface
  scopedEff : TesterSurface
  live : TesterSurface
  scopedLive : TesterSurface

/-- Model of `makeMethods()`. -/
def makeMethods : Methods := ⟨effect, scopedEff, live, scopedLive⟩

/-- Model of the standalone, non-effect `prop`: one plain `bunTest`
registration whose body is invoked directly (no environment transform), with
the same `timeoutOrOptions` parse as the tester variant. -/
structure PlainPropRegistration : Type where
  name : String
  arbitraries : List Nat
  fcOptions : Option FcParams
  timeoutMillis : Option Nat
  deriving DecidableEq

/-- Model of the exported non-effect `prop`. -/
def prop (name : String) (arbitraries : List Nat) (timeout : PropTimeout) :
    PlainPropRegistration :=
  ⟨name, arbitraries, fcOptionsOf timeout, timeoutMsOf timeout⟩

/-- C9: the default tester surface exposes exactly the four variants
`effect`, `scoped`, `live` and `scopedLive`, each defined by exactly one
environment transform — identity for `live`, scoping only for `scopedLive`,
test services only for `effect`, scoping then test services for `scoped` —
and every modifier of `makeTester(mapEffect)` (skip, only, skipIf, if/runIf,
each, failing/fails, prop) funnels its body through that same `mapEffect`
into the Outcome Bridge as `asVoid (mapEffect (suspend body))`. -/
theorem makeTester_four_variants_and_uniform_modifiers :
    (∀ e : Eff, liveTransform e = e) ∧
    (∀ e : Eff, scopedLiveTransform e = .scopedOf e) ∧
    (∀ e : Eff, effectTransform e = .provide e TestEnv) ∧
    (∀ e : Eff, scopedTransform e = .provide (.scopedOf e) TestEnv) ∧
    makeMethods = ⟨makeTester effectTransform, makeTester scopedTransform,
      makeTester liveTransform, makeTester scopedLiveTransform⟩ ∧
    (∀ (mapEffect : Eff → Eff) (name : String) (self : Eff) (timeout : Option Nat)
        (condition : Bool) (cases : List Nat) (caseBody : Nat → Eff)
        (arbitraries : List Nat) (propBody : List Nat → Eff) (pt : PropTimeout)
        (args : List Nat),
      ((makeTester mapEffect).base name self timeout).toRun =
        .asVoid (mapEffect (.suspend self)) ∧
      ((makeTester mapEffect).skip name self timeout).toRun =
        .asVoid (mapEffect (.suspend self)) ∧
      ((makeTester mapEffect).only name self timeout).toRun =
        .asVoid (mapEffect (.suspend self)) ∧
      ((makeTester mapEffect).skipIf condition name self timeout).toRun =
        .asVoid (mapEffect (.suspend self)) ∧
      ((makeTester mapEffect).ifCond condition name self timeout).toRun =
        .asVoid (mapEffect (.suspend self)) ∧
      (makeTester mapEffect).runIf = (makeTester mapEffect).ifCond ∧
      ((makeTester mapEffect).failing name self timeout).toRun =
        .asVoid (mapEffect (.suspend self)) ∧
      (makeTester mapEffect).fails = (makeTester mapEffect).failing ∧
      (makeTester mapEffect).each cases name caseBody timeout =
        cases.map (fun args =>
          ⟨.eachCase, name, .asVoid (mapEffect (.suspend (caseBody args))), timeout⟩) ∧
      ((makeTester mapEffect).propOf name arbitraries propBody pt).runPerArgs args =
        .asVoid (mapEffect (.suspend (propBody args)))) :=
  ⟨fun _ => rfl, fun _ => rfl, fun _ => rfl, fun _ => rfl, rfl,
    fun _ _ _ _ _ _ _ _ _ _ _ =>
      ⟨rfl, rfl, rfl, rfl, rfl, rfl, rfl, rfl, rfl, rfl⟩⟩

/-- C10: in both the tester's `prop` variant and the standalone non-effect
`prop`, the final `timeoutOrOptions` argument is parsed by the same two
lines: an object forwards its `fastCheck` field and leaves the host-runner
timeout `undefined`, a number becomes the host-runner timeout and leaves the
fast-check options `undefined` — one call can never set both. -/
theorem prop_fastCheck_and_timeout_mutually_exclusive :
    (∀ (mapEffect : Eff → Eff) (name : String) (arbitraries : List Nat)
        (body : List Nat → Eff) (t : PropTimeout),
      ((makeTester mapEffect).propOf name arbitraries body t).fcOptions = fcOptionsOf t ∧
      ((makeTester mapEffect).propOf name arbitraries body t).timeoutMillis =
        timeoutMsOf t) ∧
    (∀ (name : String) (arbitraries : List Nat) (t : PropTimeout),
      (prop name arbitraries t).fcOptions = fcOptionsOf t ∧
      (prop name arbitraries t).timeoutMillis = timeoutMsOf t) ∧
    (∀ fastCheck : Option FcParams,
      fcOptionsOf (.objectOptions fastCheck) = fastCheck ∧
      timeoutMsOf (.objectOptions fastCheck) = none) ∧
    (∀ n : Nat,
      timeoutMsOf (.millis n) = some n ∧ fcOptionsOf (.millis n) = none) ∧
    (∀ t : PropTimeout, fcOptionsOf t = none ∨ timeoutMsOf t = none) := by
  refine ⟨fun _ _ _ _ _ => ⟨rfl, rfl⟩, fun _ _ _ => ⟨rfl, rfl⟩,
    fun _ => ⟨rfl, rfl⟩, fun _ => ⟨rfl, rfl⟩, fun t => ?_⟩
  cases t with
  | millis n => exact Or.inl rfl
  | objectOptions fastCheck => exact Or.inr rfl
  | absent => exact Or.inl rfl

end EffectBunTesting
